import Mathlib

/-!
Verification of the linted-paths repository: runtime path validators
(index.ts: FilePath, FolderPath, AnyPath, validatePath), the project-root
resolver (src/utils/project-root.ts: findProjectRoot, isProjectRoot), the
static path checker (linter.ts: PathLinter) and the tooling plugin
(createPathLinterPlugin).

The filesystem is modelled as the list of path strings for which
fs.existsSync returns true.  Node's POSIX path operations (dirname, join,
resolve, relative, isAbsolute), which the source uses from the standard
library, are modelled over character lists below; resolve and relative are
modelled for the absolute base paths the program actually passes them
(the project root, derived from an absolute working directory).
-/

namespace LintedPaths

/-- Whitespace per the ECMAScript String.prototype.trim definition
(WhiteSpace and LineTerminator code points). -/
def jsWhitespace (c : Char) : Bool :=
  let n := c.toNat
  (0x9 ≤ n && n ≤ 0xD) || n == 0x20 || n == 0xA0 || n == 0x1680 ||
  (0x2000 ≤ n && n ≤ 0x200A) || n == 0x2028 || n == 0x2029 ||
  n == 0x202F || n == 0x205F || n == 0x3000 || n == 0xFEFF

/-- Models JavaScript String.prototype.trim. -/
def jsTrim (s : String) : String :=
  ⟨((s.data.dropWhile jsWhitespace).reverse.dropWhile jsWhitespace).reverse⟩

/-- Character matched by the source regex [<>:\x22|?*\x00-\x1f]. -/
def isForbiddenChar (c : Char) : Bool :=
  c == '<' || c == '>' || c == ':' || c == '\x22' || c == '|' ||
  c == '?' || c == '*' || c.toNat ≤ 0x1f

/-- Models invalidChars.test(pathStr) for the regex [<>:\x22|?*\x00-\x1f]. -/
def containsForbidden (s : String) : Bool :=
  s.data.any isForbiddenChar

/-- Tests whether the list l starts with the list p. -/
def listStartsWith : List Char → List Char → Bool
  | _, [] => true
  | [], _ :: _ => false
  | c :: cs, p :: ps => c == p && listStartsWith cs ps

/-- Models JavaScript String.prototype.startsWith. -/
def strStartsWith (s p : String) : Bool :=
  listStartsWith s.data p.data

/-- Models the JavaScript expression (m || d): the empty string is falsy. -/
def jsOrDefault (m : Option String) (d : String) : String :=
  match m with
  | some s => if s = "" then d else s
  | none => d

/-! ### Model of Node's POSIX path module -/

/-- Splits a character list on the separator slash. -/
def splitOnSlash : List Char → List (List Char)
  | [] => [[]]
  | '/' :: rest => [] :: splitOnSlash rest
  | c :: rest =>
    match splitOnSlash rest with
    | [] => [[c]]
    | s :: ss => (c :: s) :: ss

/-- Joins path segments with slashes. -/
def joinSegs (segs : List (List Char)) : List Char :=
  List.intercalate ['/'] segs

/-- Normalizes segments of an absolute path: drops empty and dot segments;
a dot-dot segment pops the previous segment (or is dropped at the root). -/
def normSegsAbs : List (List Char) → List (List Char) → List (List Char)
  | acc, [] => acc.reverse
  | acc, s :: rest =>
    if s = [] || s = ['.'] then normSegsAbs acc rest
    else if s = ['.', '.'] then normSegsAbs acc.tail rest
    else normSegsAbs (s :: acc) rest

/-- Normalizes segments of a relative path: like normSegsAbs, but leading
dot-dot segments that cannot pop anything are kept. -/
def normSegsRel : List (List Char) → List (List Char) → List (List Char)
  | acc, [] => acc.reverse
  | acc, s :: rest =>
    if s = [] || s = ['.'] then normSegsRel acc rest
    else if s = ['.', '.'] then
      match acc with
      | [] => normSegsRel [s] rest
      | top :: acctl =>
        if top = ['.', '.'] then normSegsRel (s :: acc) rest
        else normSegsRel acctl rest
    else normSegsRel (s :: acc) rest

/-- Normalizes an absolute path (as Node's path.resolve does for its
result): collapse separators, resolve dot and dot-dot segments. -/
def resolveAbs (l : List Char) : List Char :=
  match normSegsAbs [] (splitOnSlash l) with
  | [] => ['/']
  | segs => '/' :: joinSegs segs

/-- Models Node's path.posix.normalize (without preservation of a trailing
separator, which no call site of this program produces). -/
def normalizeList (l : List Char) : List Char :=
  match l with
  | [] => ['.']
  | '/' :: _ => resolveAbs l
  | _ =>
    match normSegsRel [] (splitOnSlash l) with
    | [] => ['.']
    | segs => joinSegs segs

/-- Models Node's path.posix.join on two arguments: empty arguments are
skipped, the remainder is joined with a slash and normalized. -/
def pathJoin (a b : String) : String :=
  match (if a.data = [] then [] else [a.data]) ++
        (if b.data = [] then [] else [b.data]) with
  | [] => "."
  | parts => ⟨normalizeList (joinSegs parts)⟩

/-- Core of Node's path.posix.dirname, on a character list.  Mirrors the
index scan of the source of Node: find the last separator that is followed
by a non-separator character (never at index 0) and cut there; otherwise
the result is the root or the dot directory. -/
def dirnameList (l : List Char) : List Char :=
  match l with
  | [] => ['.']
  | c :: _ =>
    let hasRoot := c == '/'
    let r1 := l.reverse.dropWhile (fun x => x == '/')
    let r2 := r1.dropWhile (fun x => x != '/')
    let res := r2.tail.reverse
    if res.isEmpty then (if hasRoot then ['/'] else ['.'])
    else if hasRoot && res == ['/'] then ['/', '/']
    else res

/-- Models Node's path.posix.dirname. -/
def pathDirname (s : String) : String :=
  ⟨dirnameList s.data⟩

/-- Models Node's path.posix.isAbsolute. -/
def strIsAbsolute (s : String) : Bool :=
  match s.data with
  | '/' :: _ => true
  | _ => false

/-- Models Node's path.posix.resolve(root, p) for an absolute root (the
only base the program passes): an absolute p is normalized as-is,
otherwise p is joined to the root and normalized. -/
def pathResolve (root p : String) : String :=
  if strIsAbsolute p then ⟨resolveAbs p.data⟩
  else ⟨resolveAbs (root.data ++ '/' :: p.data)⟩

/-- Segments of an absolute path after normalization. -/
def segsOfAbs (s : String) : List (List Char) :=
  normSegsAbs [] (splitOnSlash s.data)

/-- Drops the longest common prefix of two segment lists, returning the
two remainders. -/
def dropCommonSegs : List (List Char) → List (List Char) → List (List Char) × List (List Char)
  | a :: as, b :: bs => if a = b then dropCommonSegs as bs else (a :: as, b :: bs)
  | as, bs => (as, bs)

/-- Models Node's path.posix.relative(f, t) for absolute f and t (the only
arguments the program passes): both are normalized, the common prefix is
dropped, each remaining segment of f becomes a dot-dot segment, followed
by the remaining segments of t. -/
def pathRelative (f t : String) : String :=
  let p := dropCommonSegs (segsOfAbs f) (segsOfAbs t)
  ⟨joinSegs (p.1.map (fun _ => ['.', '.']) ++ p.2)⟩

/-- Location p lies inside the directory subtree rooted at root (the
spec's notion of containment in the project root subtree, for normalized
absolute paths): p is the root itself or extends it with a separator. -/
def withinSubtree (root p : String) : Bool :=
  p == root || listStartsWith p.data (root.data ++ ['/'])

/-! ### Filesystem model -/

/-- The filesystem is the list of path strings for which fs.existsSync
returns true (an I/O error caught by the source counts as absence, which
the abstract probe already covers). -/
abbrev FileSystem := List String

/-- Models fs.existsSync. -/
def existsSync (fs : FileSystem) (p : String) : Bool :=
  fs.contains p

/-! ### src/utils/project-root.ts -/

/-- The marker list of findProjectRoot, in source order. -/
def projectRootMarkers : List String :=
  [".git", "package.json", "yarn.lock", "pnpm-lock.yaml",
   "package-lock.json", "lerna.json", "nx.json", "workspace.json"]

/-- One loop iteration's marker test: some marker exists directly under
dir. -/
def hasMarker (fs : FileSystem) (dir : String) : Bool :=
  projectRootMarkers.any (fun m => existsSync fs (pathJoin dir m))

/-- Error message thrown by findProjectRoot when no marker is found. -/
def rootNotFoundMsg : String :=
  "Could not find project root. Make sure you are in a project directory with package.json or .git"

/-- Loop of findProjectRoot: while the current directory is not its own
parent, return it if it has a marker, else ascend.  The fuel argument only
bounds the iteration count; the top-level wrapper passes enough fuel for
the dirname chain, which shortens the string at every non-fixpoint step
(except the one-step descents through the dot and double-slash
directories, covered by the slack). -/
def findProjectRootAux (fs : FileSystem) : Nat → String → Except String String
  | 0, _ => .error rootNotFoundMsg
  | Nat.succ fuel, dir =>
    if dir = pathDirname dir then .error rootNotFoundMsg
    else if hasMarker fs dir then .ok dir
    else findProjectRootAux fs fuel (pathDirname dir)

/-- The directories the loop of findProjectRoot tests, in order: the start
directory and its parents, stopping (exclusively) at the first directory
that equals its own parent. -/
def ancestorChain : Nat → String → List String
  | 0, _ => []
  | Nat.succ fuel, dir =>
    if dir = pathDirname dir then []
    else dir :: ancestorChain fuel (pathDirname dir)

/-- Models findProjectRoot(startDir?).  cwd models process.cwd(); the
JavaScript default (startDir || process.cwd()) treats the empty string as
absent. -/
def findProjectRoot (fs : FileSystem) (startDir : Option String) (cwd : String) : Except String String :=
  let start := jsOrDefault startDir cwd
  findProjectRootAux fs (start.length + 3) start

/-- Models getProjectRoot from index.ts. -/
def getProjectRoot (fs : FileSystem) (cwd : String) : Except String String :=
  findProjectRoot fs none cwd

/-- Models isProjectRoot: attempts resolution from dir and converts
failure to false. -/
def isProjectRoot (fs : FileSystem) (cwd : String) (dir : String) : Bool :=
  match findProjectRoot fs (some dir) cwd with
  | .ok _ => true
  | .error _ => false

/-! ### index.ts runtime validators -/

/-- Models validatePath from index.ts.  The typeof guard is always passed
by a string argument.  A thrown Error is the error branch of Except. -/
def validatePath (fs : FileSystem) (cwd : String) (pathStr : String) (errorMessage : String) : Except String Unit :=
  if jsTrim pathStr = "" then .error errorMessage
  else if containsForbidden pathStr then
    .error (errorMessage ++ ": contains invalid characters")
  else if strStartsWith pathStr "./" || strStartsWith pathStr "../" then
    match getProjectRoot fs cwd with
    | .error e => .error e
    | .ok projectRoot =>
      if !(strStartsWith (pathResolve projectRoot pathStr) projectRoot) then
        .error (errorMessage ++ ": path escapes project root")
      else .ok ()
  else .ok ()

/-- Models FilePath from index.ts. -/
def FilePath (fs : FileSystem) (cwd : String) (pathStr : String) (errorMessage : Option String) : Except String String :=
  (validatePath fs cwd pathStr (jsOrDefault errorMessage "Invalid file path")).map
    (fun _ => pathStr)

/-- Models FolderPath from index.ts. -/
def FolderPath (fs : FileSystem) (cwd : String) (pathStr : String) (errorMessage : Option String) : Except String String :=
  (validatePath fs cwd pathStr (jsOrDefault errorMessage "Invalid folder path")).map
    (fun _ => pathStr)

/-- Models AnyPath from index.ts. -/
def AnyPath (fs : FileSystem) (cwd : String) (pathStr : String) (errorMessage : Option String) : Except String String :=
  (validatePath fs cwd pathStr (jsOrDefault errorMessage "Invalid path")).map
    (fun _ => pathStr)

/-! ### linter.ts: static path checker -/

/-- The severity configuration option of LinterOptions. -/
inductive Severity where
  | error
  | warn
  | off
deriving DecidableEq, Repr

/-- The ts.DiagnosticCategory enumeration. -/
inductive DiagnosticCategory where
  | Warning
  | Error
  | Suggestion
  | Message
deriving DecidableEq, Repr

/-- A ts.Diagnostic as the linter builds it; file holds the name of the
source file of the originating node. -/
structure Diagnostic where
  category : DiagnosticCategory
  code : Nat
  messageText : String
  file : String
  start : Nat
  length : Nat
deriving DecidableEq, Repr

/-- A ts.EntityName: an identifier or a qualified name whose right side is
an identifier, kept as its text. -/
inductive EntityName where
  | ident (text : String)
  | qualified (left : EntityName) (right : String)
deriving DecidableEq, Repr

/-- A type annotation node: a type reference, or any other type node
(keyword types such as the plain string type). -/
inductive TypeNode where
  | typeReference (typeName : EntityName)
  | otherType
deriving DecidableEq, Repr

/-- An initializer expression: a string literal (with the source span
getStart and getWidth of the literal node) or anything else. -/
inductive TSExpr where
  | stringLiteral (text : String) (start width : Nat)
  | otherExpr
deriving DecidableEq, Repr

/-- A ts.VariableDeclaration: optional initializer, optional type
annotation, and the name of the source file the node belongs to
(node.getSourceFile()). -/
structure VariableDeclaration where
  initializer : Option TSExpr
  type : Option TypeNode
  fileName : String
deriving DecidableEq, Repr

mutual
/-- A syntax-tree node as the checkFile visitor sees it: possibly a
variable declaration, plus child nodes visited by ts.forEachChild. -/
inductive TSNode where
  | mk (decl : Option VariableDeclaration) (children : TSForest)

/-- The children list of a node. -/
inductive TSForest where
  | nil
  | cons (n : TSNode) (ns : TSForest)
end

/-- A ts.SourceFile: its declaration-file flag and its syntax tree. -/
structure SourceFile where
  isDeclarationFile : Bool
  ast : TSNode

/-- A ts.Program, as the abstract interface the linter consumes:
getSourceFiles and getSourceFile. -/
structure TSProgram where
  sourceFiles : List SourceFile
  getSourceFile : String → Option SourceFile

/-- The PathLinter instance state: the program, the project root computed
at construction, and the normalized severity option. -/
structure PathLinter where
  program : TSProgram
  projectRoot : String
  severity : Severity

/-- Models the PathLinter constructor: findProjectRoot computes the
project root (propagating its failure), and an absent severity option
defaults to error. -/
def mkPathLinter (fs : FileSystem) (cwd : String) (program : TSProgram) (options : Option Severity) : Except String PathLinter :=
  match findProjectRoot fs none cwd with
  | .error e => .error e
  | .ok root => .ok { program := program, projectRoot := root, severity := options.getD Severity.error }

/-- Models PathLinter.getTypeNameFromAST: an identifier yields its text; a
qualified name yields the text of its right-hand identifier (the source
recurses into the right side, which is an identifier). -/
def getTypeNameFromAST : EntityName → String
  | .ident t => t
  | .qualified _ r => r

/-- Models PathLinter.isPathType. -/
def isPathType : TypeNode → Bool
  | .typeReference n =>
    let typeName := getTypeNameFromAST n
    typeName == "FilePathStr" || typeName == "FolderPathStr" || typeName == "AnyPathStr"
  | .otherType => false

/-- The path resolution step of PathLinter.isValidPath: an absolute value
is used as-is, otherwise it is resolved against the project root. -/
def resolveFull (root v : String) : String :=
  if strIsAbsolute v then v else pathResolve root v

/-- The containment test of PathLinter.isValidPath: the relative path
from the project root starts with a dot-dot or is absolute. -/
def relEscapes (root full : String) : Bool :=
  let relativePath := pathRelative root full
  strStartsWith relativePath ".." || strIsAbsolute relativePath

/-- Models PathLinter.isValidPath.  The falsiness test on the value
rejects the empty string; the typeof test is always passed. -/
def isValidPath (fs : FileSystem) (root : String) (pathValue : String) : Bool :=
  if pathValue == "" then false
  else if containsForbidden pathValue then false
  else
    let fullPath := resolveFull root pathValue
    if relEscapes root fullPath then false
    else existsSync fs fullPath

/-- Models PathLinter.getSeverityCategory (the default branch covers the
error value). -/
def getSeverityCategory : Severity → DiagnosticCategory
  | .warn => .Warning
  | .off => .Suggestion
  | .error => .Error

/-- Models PathLinter.checkVariableDeclaration (the visitor only calls it
when an initializer is present; an absent initializer yields no
diagnostic). -/
def checkVariableDeclaration (fs : FileSystem) (l : PathLinter) (node : VariableDeclaration) : Option Diagnostic :=
  match node.initializer with
  | none => none
  | some TSExpr.otherExpr => none
  | some (TSExpr.stringLiteral pathValue start width) =>
    match node.type with
    | none => none
    | some t =>
      if !(isPathType t) then none
      else if !(isValidPath fs l.projectRoot pathValue) then
        some { category := getSeverityCategory l.severity,
               code := 1001,
               messageText := "Invalid path: \x22" ++ pathValue ++ "\x22 does not exist or is not accessible",
               file := node.fileName,
               start := start,
               length := width }
      else none

mutual
/-- The visit function of PathLinter.checkFile: a variable declaration
with an initializer contributes its diagnostic (if any), then the children
are visited in order. -/
def checkNode (fs : FileSystem) (l : PathLinter) : TSNode → List Diagnostic
  | .mk decl children =>
    (match decl with
     | some vd =>
       (match vd.initializer with
        | some _ => (checkVariableDeclaration fs l vd).toList
        | none => [])
     | none => []) ++ checkForest fs l children

/-- Visits a children list in order. -/
def checkForest (fs : FileSystem) (l : PathLinter) : TSForest → List Diagnostic
  | .nil => []
  | .cons n ns => checkNode fs l n ++ checkForest fs l ns
end

/-- Models PathLinter.checkFile. -/
def checkFile (fs : FileSystem) (l : PathLinter) (sf : SourceFile) : List Diagnostic :=
  checkNode fs l sf.ast

/-- Models PathLinter.run: every non-declaration source file of the
program is checked, in order. -/
def runLinter (fs : FileSystem) (l : PathLinter) : List Diagnostic :=
  (l.program.sourceFiles.filter (fun sf => !sf.isDeclarationFile)).flatMap
    (checkFile fs l)

/-! ### linter.ts: createPathLinterPlugin -/

/-- A language-service-like object: the intercepted diagnostics entry
point, the getProgram accessor, and all remaining dynamic property
accesses collapsed into getProp (values of an abstract type V). -/
structure LanguageService (V : Type) where
  getSemanticDiagnostics : String → List Diagnostic
  getProgram : TSProgram
  getProp : String → V

/-- The info object handed to the create entry point of the plugin. -/
structure PluginInfo (V : Type) where
  languageService : LanguageService V

/-- Models the create entry point of createPathLinterPlugin(options): a
PathLinter is built from the program of the wrapped service, and the
returned proxy intercepts getSemanticDiagnostics (appending the file's
path diagnostics to the original ones, or returning the original ones
when the program has no such source file) while forwarding every other
property access to the wrapped service. -/
def createPathLinterPlugin (V : Type) (fs : FileSystem) (cwd : String) (options : Option Severity) (info : PluginInfo V) : Except String (LanguageService V) :=
  match mkPathLinter fs cwd info.languageService.getProgram options with
  | .error e => .error e
  | .ok linter =>
    .ok { getSemanticDiagnostics := fun fileName =>
            let originalDiagnostics := info.languageService.getSemanticDiagnostics fileName
            match info.languageService.getProgram.getSourceFile fileName with
            | none => originalDiagnostics
            | some sourceFile => originalDiagnostics ++ checkFile fs linter sourceFile,
          getProgram := info.languageService.getProgram,
          getProp := info.languageService.getProp }

/-! ### Helper lemmas -/

/-- A character the predicate rejects survives dropWhile. -/
lemma mem_dropWhile_of_not (p : Char → Bool) (c : Char) (hp : p c = false) :
    ∀ l : List Char, c ∈ l → c ∈ l.dropWhile p := by
  intro l
  induction l with
  | nil => intro h; cases h
  | cons a as ih =>
    intro hmem
    rcases List.mem_cons.mp hmem with h | h
    · subst h
      simp [List.dropWhile_cons, hp]
    · by_cases hpa : p a = true
      · simpa [List.dropWhile_cons, hpa] using ih h
      · simp only [Bool.not_eq_true] at hpa
        simp [List.dropWhile_cons, hpa]
        exact Or.inr h

/-- A string containing a non-whitespace character does not trim to
empty. -/
lemma jsTrim_ne_empty (s : String) (c : Char) (hc : c ∈ s.data) (hw : jsWhitespace c = false) :
    jsTrim s ≠ "" := by
  intro h
  have hd : (jsTrim s).data = [] := by rw [h]
  have hd2 : ((s.data.dropWhile jsWhitespace).reverse.dropWhile jsWhitespace).reverse = [] := hd
  rw [List.reverse_eq_nil_iff] at hd2
  have hall := List.dropWhile_eq_nil_iff.mp hd2
  have hc1 : c ∈ s.data.dropWhile jsWhitespace := mem_dropWhile_of_not jsWhitespace c hw s.data hc
  have hc2 : c ∈ (s.data.dropWhile jsWhitespace).reverse := List.mem_reverse.mpr hc1
  have := hall c hc2
  rw [hw] at this
  cases this

/-- A string of whitespace characters trims to empty. -/
lemma jsTrim_eq_empty (s : String) (h : ∀ c ∈ s.data, jsWhitespace c = true) :
    jsTrim s = "" := by
  have h1 : s.data.dropWhile jsWhitespace = [] := List.dropWhile_eq_nil_iff.mpr h
  show String.mk (((s.data.dropWhile jsWhitespace).reverse.dropWhile jsWhitespace).reverse) = ""
  rw [h1]
  rfl

/-- A string starting with a given nonempty literal starts with its first
character. -/
lemma data_head_of_startsWith (s : String) (c : Char) (p : List Char)
    (h : listStartsWith s.data (c :: p) = true) : ∃ tl, s.data = c :: tl := by
  cases hs : s.data with
  | nil => rw [hs] at h; cases h
  | cons a tl =>
    rw [hs] at h
    rw [listStartsWith] at h
    have := (Bool.and_eq_true _ _).mp h
    have ha : a = c := by
      have := this.1
      exact eq_of_beq this
    exact ⟨tl, by rw [ha]⟩

/-- Trimming a candidate that starts with a dot never empties it. -/
lemma jsTrim_ne_empty_of_dotStart (s : String)
    (h : strStartsWith s "./" = true ∨ strStartsWith s "../" = true) :
    jsTrim s ≠ "" := by
  have hdot : ∃ tl, s.data = '.' :: tl := by
    rcases h with h | h
    · exact data_head_of_startsWith s '.' ['/'] h
    · exact data_head_of_startsWith s '.' ['.', '/'] h
  obtain ⟨tl, htl⟩ := hdot
  apply jsTrim_ne_empty s '.'
  · rw [htl]; exact List.mem_cons_self _ _
  · decide

/-- Extracts success of the inner validation from a successful
validator. -/
lemma validatePath_of_map_ok (v : Except String Unit) (s : String)
    (h : v.map (fun _ => s) = Except.ok s) : v = Except.ok () := by
  cases v with
  | ok u => cases u; rfl
  | error e => simp [Except.map] at h

/-- On a candidate whose trim is empty, validatePath throws the plain
message. -/
lemma validatePath_trim_empty (fs : FileSystem) (cwd s m : String) (h : jsTrim s = "") :
    validatePath fs cwd s m = Except.error m := by
  unfold validatePath
  rw [if_pos h]

/-- On a candidate with a forbidden character (and nonempty trim),
validatePath throws the suffixed message. -/
lemma validatePath_forbidden (fs : FileSystem) (cwd s m : String)
    (h1 : jsTrim s ≠ "") (h2 : containsForbidden s = true) :
    validatePath fs cwd s m = Except.error (m ++ ": contains invalid characters") := by
  unfold validatePath
  rw [if_neg h1]
  simp [h2]

/-- A candidate with a forbidden character always throws (either at the
emptiness check or at the character check). -/
lemma validatePath_error_of_forbidden (fs : FileSystem) (cwd s m : String)
    (h : containsForbidden s = true) : ∃ e, validatePath fs cwd s m = Except.error e := by
  by_cases h1 : jsTrim s = ""
  · exact ⟨m, validatePath_trim_empty fs cwd s m h1⟩
  · exact ⟨m ++ ": contains invalid characters", validatePath_forbidden fs cwd s m h1 h⟩

/-- A clean candidate that is not checked for containment validates. -/
lemma validatePath_ok_plain (fs : FileSystem) (cwd s m : String)
    (h1 : jsTrim s ≠ "") (h2 : containsForbidden s = false)
    (h3 : strStartsWith s "./" = false) (h4 : strStartsWith s "../" = false) :
    validatePath fs cwd s m = Except.ok () := by
  unfold validatePath
  rw [if_neg h1]
  simp [h2, h3, h4]

/-! ### Claim C4 -/

/-- Claim C4: every string containing one of the characters of the
forbidden set (or a control character below 0x20) makes all three
validators fail. -/
theorem claim4_main (fs : FileSystem) (cwd s : String) (msg : Option String)
    (h : containsForbidden s = true) :
    (∃ e, FilePath fs cwd s msg = Except.error e) ∧
    (∃ e, FolderPath fs cwd s msg = Except.error e) ∧
    (∃ e, AnyPath fs cwd s msg = Except.error e) := by
  refine ⟨?_, ?_, ?_⟩
  · obtain ⟨e, he⟩ := validatePath_error_of_forbidden fs cwd s (jsOrDefault msg "Invalid file path") h
    exact ⟨e, by unfold FilePath; rw [he]; rfl⟩
  · obtain ⟨e, he⟩ := validatePath_error_of_forbidden fs cwd s (jsOrDefault msg "Invalid folder path") h
    exact ⟨e, by unfold FolderPath; rw [he]; rfl⟩
  · obtain ⟨e, he⟩ := validatePath_error_of_forbidden fs cwd s (jsOrDefault msg "Invalid path") h
    exact ⟨e, by unfold AnyPath; rw [he]; rfl⟩

/-- Witness for claim C4 at the candidate with a less-than sign. -/
theorem claim4_witness :
    (∃ e, FilePath [] "/q" "a<b" none = Except.error e) ∧
    (∃ e, FolderPath [] "/q" "a<b" none = Except.error e) ∧
    (∃ e, AnyPath [] "/q" "a<b" none = Except.error e) :=
  claim4_main [] "/q" "a<b" none (by decide)

/-! ### Claim C10 -/

/-- Claim C10: a nonempty candidate consisting of whitespace characters
only (the whitespace control characters included) makes each validator
fail with the plain supplied-or-default message, with no suffix, because
the trimmed-emptiness check fires before the character check. -/
theorem claim10_main (fs : FileSystem) (cwd s : String) (msg : Option String)
    (h1 : s.data ≠ []) (h2 : ∀ c ∈ s.data, jsWhitespace c = true) :
    FilePath fs cwd s msg = Except.error (jsOrDefault msg "Invalid file path") ∧
    FolderPath fs cwd s msg = Except.error (jsOrDefault msg "Invalid folder path") ∧
    AnyPath fs cwd s msg = Except.error (jsOrDefault msg "Invalid path") := by
  have ht := jsTrim_eq_empty s h2
  refine ⟨?_, ?_, ?_⟩
  · unfold FilePath; rw [validatePath_trim_empty _ _ _ _ ht]; rfl
  · unfold FolderPath; rw [validatePath_trim_empty _ _ _ _ ht]; rfl
  · unfold AnyPath; rw [validatePath_trim_empty _ _ _ _ ht]; rfl

/-- Witness for claim C10 at a vertical-tab and form-feed candidate. -/
theorem claim10_witness :
    FilePath [] "/q" "\x0B\x0C" none = Except.error (jsOrDefault none "Invalid file path") ∧
    FolderPath [] "/q" "\x0B\x0C" none = Except.error (jsOrDefault none "Invalid folder path") ∧
    AnyPath [] "/q" "\x0B\x0C" none = Except.error (jsOrDefault none "Invalid path") :=
  claim10_main [] "/q" "\x0B\x0C" none (by decide) (by decide)

/-! ### Claim C5 -/

/-- Counterexample to claim C5 as stated: the single-space candidate is
nonempty, has no forbidden character and does not start with a dot-slash
or dot-dot-slash, yet every validator throws (the claim asserts success);
the trimmed-emptiness check rejects it. -/
theorem claim5_counterexample :
    (" " : String) ≠ "" ∧ containsForbidden " " = false ∧
    strStartsWith " " "./" = false ∧ strStartsWith " " "../" = false ∧
    FilePath [] "/q" " " none = Except.error "Invalid file path" ∧
    FolderPath [] "/q" " " none = Except.error "Invalid folder path" ∧
    AnyPath [] "/q" " " none = Except.error "Invalid path" :=
  ⟨by decide, rfl, rfl, rfl, rfl, rfl, rfl⟩

/-- Claim C5 as amended: every string that is nonempty after trimming
whitespace, has no forbidden character and does not start with a
dot-slash or dot-dot-slash is returned unchanged by all three validators,
for every filesystem (no existence check happens). -/
theorem claim5_main (fs : FileSystem) (cwd s : String) (msg : Option String)
    (h1 : jsTrim s ≠ "") (h2 : containsForbidden s = false)
    (h3 : strStartsWith s "./" = false) (h4 : strStartsWith s "../" = false) :
    FilePath fs cwd s msg = Except.ok s ∧
    FolderPath fs cwd s msg = Except.ok s ∧
    AnyPath fs cwd s msg = Except.ok s := by
  refine ⟨?_, ?_, ?_⟩
  · unfold FilePath; rw [validatePath_ok_plain _ _ _ _ h1 h2 h3 h4]; rfl
  · unfold FolderPath; rw [validatePath_ok_plain _ _ _ _ h1 h2 h3 h4]; rfl
  · unfold AnyPath; rw [validatePath_ok_plain _ _ _ _ h1 h2 h3 h4]; rfl

/-- Witness for the amended claim C5 at a bare nonexistent path on the
empty filesystem. -/
theorem claim5_witness :
    FilePath [] "/q" "hello.txt" none = Except.ok "hello.txt" ∧
    FolderPath [] "/q" "hello.txt" none = Except.ok "hello.txt" ∧
    AnyPath [] "/q" "hello.txt" none = Except.ok "hello.txt" :=
  claim5_main [] "/q" "hello.txt" none (by decide) (by decide) (by decide) (by decide)

/-- On a clean dot-relative candidate, validatePath reduces to the
root-containment test against the resolved path. -/
lemma validatePath_relative (fs : FileSystem) (cwd s m r : String)
    (hrel : strStartsWith s "./" = true ∨ strStartsWith s "../" = true)
    (hforb : containsForbidden s = false)
    (hroot : getProjectRoot fs cwd = Except.ok r) :
    validatePath fs cwd s m =
      (if !(strStartsWith (pathResolve r s) r) then
        Except.error (m ++ ": path escapes project root")
      else Except.ok ()) := by
  have h1 := jsTrim_ne_empty_of_dotStart s hrel
  unfold validatePath
  rw [if_neg h1]
  have hcond : (strStartsWith s "./" || strStartsWith s "../") = true := by
    rcases hrel with h | h <;> simp [h]
  simp only [hforb, Bool.false_eq_true, if_false, hcond, if_true, hroot]

/-! ### Claim C1 -/

/-- Counterexample to claim C1 as stated: with the project root at the
directory slash-a-slash-b, the dot-relative candidate dot-slash-dotdot-
slash-b2 is accepted by AnyPath, yet it resolves to the sibling directory
slash-a-slash-b2, which lies outside the project root subtree (the
string-prefix containment test of the source accepts it because the
sibling's path extends the root's path textually). -/
theorem claim1_counterexample :
    AnyPath ["/a/b/package.json"] "/a/b" "./../b2" none = Except.ok "./../b2" ∧
    getProjectRoot ["/a/b/package.json"] "/a/b" = Except.ok "/a/b" ∧
    strStartsWith "./../b2" "./" = true ∧
    pathResolve "/a/b" "./../b2" = "/a/b2" ∧
    withinSubtree "/a/b" "/a/b2" = false :=
  ⟨rfl, rfl, rfl, rfl, rfl⟩

/-- Claim C1 as amended: for a candidate beginning with dot-slash or
dot-dot-slash, acceptance by any of the three validators guarantees only
that the path resolved against the project root begins with the project
root path as a string prefix (not that it denotes a location inside the
project root subtree); candidates of any other shape undergo no
containment check at all. -/
theorem claim1_main (fs : FileSystem) (cwd s : String) (msg : Option String) (r : String)
    (hrel : strStartsWith s "./" = true ∨ strStartsWith s "../" = true)
    (hroot : getProjectRoot fs cwd = Except.ok r) :
    (FilePath fs cwd s msg = Except.ok s → strStartsWith (pathResolve r s) r = true) ∧
    (FolderPath fs cwd s msg = Except.ok s → strStartsWith (pathResolve r s) r = true) ∧
    (AnyPath fs cwd s msg = Except.ok s → strStartsWith (pathResolve r s) r = true) := by
  have key : ∀ m, validatePath fs cwd s m = Except.ok () →
      strStartsWith (pathResolve r s) r = true := by
    intro m hok
    by_cases hforb : containsForbidden s = true
    · obtain ⟨e, he⟩ := validatePath_error_of_forbidden fs cwd s m hforb
      rw [he] at hok
      cases hok
    · rw [validatePath_relative fs cwd s m r hrel (by simpa using hforb) hroot] at hok
      by_cases hsw : strStartsWith (pathResolve r s) r = true
      · exact hsw
      · simp only [Bool.not_eq_true] at hsw
        rw [hsw] at hok
        cases hok
  refine ⟨fun h => ?_, fun h => ?_, fun h => ?_⟩
  · exact key _ (validatePath_of_map_ok _ _ h)
  · exact key _ (validatePath_of_map_ok _ _ h)
  · exact key _ (validatePath_of_map_ok _ _ h)

/-- Witness for the amended claim C1 at an accepted dot-relative
candidate. -/
theorem claim1_witness :
    strStartsWith (pathResolve "/a/b" "./c") "/a/b" = true :=
  (claim1_main ["/a/b/package.json"] "/a/b" "./c" none "/a/b" (Or.inl rfl) rfl).1 rfl

/-! ### Claim C6 -/

/-- Counterexample to claim C6 as stated: the candidate dot-dot-slash-x-
less-than begins with dot-dot-slash and resolves outside the project
root, but the validator fails with the invalid-characters suffix (the
character check fires first), not with the root-escape suffix the claim
requires. -/
theorem claim6_counterexample :
    strStartsWith "../x<" "../" = true ∧
    getProjectRoot ["/a/b/package.json"] "/a/b" = Except.ok "/a/b" ∧
    strStartsWith (pathResolve "/a/b" "../x<") "/a/b" = false ∧
    FilePath ["/a/b/package.json"] "/a/b" "../x<" none =
      Except.error "Invalid file path: contains invalid characters" ∧
    "Invalid file path: contains invalid characters" ≠
      "Invalid file path" ++ ": path escapes project root" :=
  ⟨rfl, rfl, rfl, rfl, by decide⟩

/-- Claim C6 as amended: a candidate beginning with dot-slash or
dot-dot-slash that contains no forbidden character and whose resolution
against the project root does not begin with the project root path makes
each validator fail with the supplied-or-default message suffixed with
the root-escape text; the containment check is applied only to
candidates beginning with dot-slash or dot-dot-slash (any other clean
candidate is accepted without it). -/
theorem claim6_main (fs : FileSystem) (cwd s : String) (msg : Option String) (r : String)
    (hrel : strStartsWith s "./" = true ∨ strStartsWith s "../" = true)
    (hforb : containsForbidden s = false)
    (hroot : getProjectRoot fs cwd = Except.ok r)
    (hesc : strStartsWith (pathResolve r s) r = false) :
    FilePath fs cwd s msg =
      Except.error (jsOrDefault msg "Invalid file path" ++ ": path escapes project root") ∧
    FolderPath fs cwd s msg =
      Except.error (jsOrDefault msg "Invalid folder path" ++ ": path escapes project root") ∧
    AnyPath fs cwd s msg =
      Except.error (jsOrDefault msg "Invalid path" ++ ": path escapes project root") ∧
    (∀ s2 msg2, strStartsWith s2 "./" = false → strStartsWith s2 "../" = false →
      jsTrim s2 ≠ "" → containsForbidden s2 = false →
      AnyPath fs cwd s2 msg2 = Except.ok s2) := by
  refine ⟨?_, ?_, ?_, ?_⟩
  · unfold FilePath
    rw [validatePath_relative fs cwd s _ r hrel hforb hroot]
    simp [hesc, Except.map]
  · unfold FolderPath
    rw [validatePath_relative fs cwd s _ r hrel hforb hroot]
    simp [hesc, Except.map]
  · unfold AnyPath
    rw [validatePath_relative fs cwd s _ r hrel hforb hroot]
    simp [hesc, Except.map]
  · intro s2 msg2 h3 h4 h1 h2
    unfold AnyPath
    rw [validatePath_ok_plain fs cwd s2 _ h1 h2 h3 h4]
    rfl

/-- Witness for the amended claim C6 at a doubly-ascending candidate. -/
theorem claim6_witness :
    FilePath ["/a/b/package.json"] "/a/b" "../../x" none =
      Except.error (jsOrDefault none "Invalid file path" ++ ": path escapes project root") :=
  (claim6_main ["/a/b/package.json"] "/a/b" "../../x" none "/a/b"
    (Or.inr rfl) rfl rfl rfl).1

/-! ### Claim C3 -/

/-- A present nonempty startDir overrides the working directory. -/
lemma jsOrDefault_some (start cwd : String) (h : start ≠ "") :
    jsOrDefault (some start) cwd = start := by
  simp [jsOrDefault, h]

/-- The loop of findProjectRoot returns the first tested directory with a
marker, and throws when no tested directory has one. -/
lemma findProjectRootAux_eq_find (fs : FileSystem) :
    ∀ (fuel : Nat) (dir : String),
      findProjectRootAux fs fuel dir =
        (match (ancestorChain fuel dir).find? (hasMarker fs) with
         | some r => Except.ok r
         | none => Except.error rootNotFoundMsg) := by
  intro fuel
  induction fuel with
  | zero => intro dir; rfl
  | succ n ih =>
    intro dir
    rw [findProjectRootAux, ancestorChain]
    by_cases h1 : dir = pathDirname dir
    · rw [if_pos h1, if_pos h1]; rfl
    · rw [if_neg h1, if_neg h1]
      by_cases h2 : hasMarker fs dir = true
      · simp [h2, List.find?_cons_of_pos]
      · have h2f : hasMarker fs dir = false := by simpa using h2
        rw [ih (pathDirname dir)]
        simp [h2f, List.find?_cons_of_neg]

/-- No directory the loop tests is its own parent: the filesystem root is
excluded from the tested ancestors. -/
lemma ancestorChain_ne_fixpoint :
    ∀ (fuel : Nat) (dir d : String), d ∈ ancestorChain fuel dir → ¬(d = pathDirname d) := by
  intro fuel
  induction fuel with
  | zero => intro dir d h; rw [ancestorChain] at h; cases h
  | succ n ih =>
    intro dir d h
    rw [ancestorChain] at h
    by_cases h1 : dir = pathDirname dir
    · rw [if_pos h1] at h; cases h
    · rw [if_neg h1] at h
      rcases List.mem_cons.mp h with h2 | h2
      · rw [h2]; exact h1
      · exact ih (pathDirname dir) d h2

/-- Counterexample to claim C3 as stated: the filesystem root is the
parent of the start directory slash-a and contains the dot-git marker,
but findProjectRoot throws NotFound: the loop stops as soon as the
current directory equals its own parent, so the filesystem root itself is
never tested (the claim asserts the ancestors are tested up to and
including the filesystem root). -/
theorem claim3_counterexample :
    pathDirname "/a" = "/" ∧
    hasMarker ["/.git"] "/" = true ∧
    findProjectRoot ["/.git"] (some "/a") "/a" = Except.error rootNotFoundMsg :=
  ⟨rfl, rfl, rfl⟩

/-- Claim C3 as amended: findProjectRoot tests, in order, the start
directory and its successive parents, stopping (exclusively) before the
first directory that equals its own parent — so the filesystem root is
never tested; it returns the nearest tested ancestor for which any of the
eight markers exists, and fails with the NotFound message otherwise. -/
theorem claim3_main (fs : FileSystem) (start cwd : String) (h : start ≠ "") :
    findProjectRoot fs (some start) cwd =
      (match (ancestorChain (start.length + 3) start).find? (hasMarker fs) with
       | some r => Except.ok r
       | none => Except.error rootNotFoundMsg) ∧
    (∀ d ∈ ancestorChain (start.length + 3) start, ¬(d = pathDirname d)) := by
  constructor
  · show findProjectRootAux fs ((jsOrDefault (some start) cwd).length + 3)
        (jsOrDefault (some start) cwd) = _
    rw [jsOrDefault_some start cwd h]
    exact findProjectRootAux_eq_find fs (start.length + 3) start
  · intro d hd
    exact ancestorChain_ne_fixpoint (start.length + 3) start d hd

/-- Witness for the amended claim C3: the marker at slash-a-slash-b is
found from the deeper start directory, and matches the search over the
tested ancestor chain. -/
theorem claim3_witness :
    findProjectRoot ["/a/b/package.json"] (some "/a/b/c") "/x" =
      (match (ancestorChain ("/a/b/c".length + 3) "/a/b/c").find?
          (hasMarker ["/a/b/package.json"]) with
       | some r => Except.ok r
       | none => Except.error rootNotFoundMsg) :=
  (claim3_main ["/a/b/package.json"] "/a/b/c" "/x" (by decide)).1

/-! ### Claim C2 -/

/-- Counterexample to claim C2 as stated: a marker-typed declaration
initialized with the empty string literal receives a diagnostic although
the literal passes the forbidden-character check, resolves to the project
root itself (inside the root, by the code's own relative test and by
subtree containment), and that location exists on the filesystem: the
falsiness test of isValidPath rejects the empty string before any of the
claim's three conditions applies. -/
theorem claim2_counterexample :
    checkVariableDeclaration ["/a/b", "/a/b/package.json"]
      ⟨⟨[], fun _ => none⟩, "/a/b", Severity.error⟩
      ⟨some (TSExpr.stringLiteral "" 10 2),
       some (TypeNode.typeReference (EntityName.ident "FilePathStr")), "test.ts"⟩ =
      some { category := DiagnosticCategory.Error, code := 1001,
             messageText := "Invalid path: \x22\x22 does not exist or is not accessible",
             file := "test.ts", start := 10, length := 2 } ∧
    containsForbidden "" = false ∧
    relEscapes "/a/b" (resolveFull "/a/b" "") = false ∧
    withinSubtree "/a/b" (resolveFull "/a/b" "") = true ∧
    existsSync ["/a/b", "/a/b/package.json"] (resolveFull "/a/b" "") = true :=
  ⟨rfl, rfl, rfl, rfl, rfl⟩

/-- Claim C2 as amended: for a variable declaration with a string-literal
initializer and a marker-type annotation, the checker emits exactly one
diagnostic — with code 1001, the fixed message quoting the literal, the
originating file, and the literal's span — if and only if the literal is
empty, fails the forbidden-character check, resolves outside the project
root (the relative path from the root starts with dot-dot or is
absolute), or does not exist on the filesystem; otherwise it emits
none. -/
theorem claim2_main (fs : FileSystem) (l : PathLinter) (v : String) (st w : Nat)
    (fn : String) (t : TypeNode) (ht : isPathType t = true) :
    checkVariableDeclaration fs l ⟨some (TSExpr.stringLiteral v st w), some t, fn⟩ =
      (if v = "" ∨ containsForbidden v = true ∨
          relEscapes l.projectRoot (resolveFull l.projectRoot v) = true ∨
          existsSync fs (resolveFull l.projectRoot v) = false
       then some { category := getSeverityCategory l.severity, code := 1001,
                   messageText := "Invalid path: \x22" ++ v ++ "\x22 does not exist or is not accessible",
                   file := fn, start := st, length := w }
       else none) := by
  simp only [checkVariableDeclaration, ht, Bool.not_true, Bool.false_eq_true, if_false]
  by_cases hv : v = ""
  · simp [isValidPath, hv]
  · have hvb : (v == "") = false := by simp [hv]
    by_cases hforb : containsForbidden v = true
    · simp [isValidPath, hvb, hforb, hv]
    · have hforbf : containsForbidden v = false := by simpa using hforb
      by_cases hesc : relEscapes l.projectRoot (resolveFull l.projectRoot v) = true
      · simp [isValidPath, hvb, hforbf, hesc, hv]
      · have hescf : relEscapes l.projectRoot (resolveFull l.projectRoot v) = false := by
          simpa using hesc
        by_cases hex : existsSync fs (resolveFull l.projectRoot v) = true
        · simp [isValidPath, hvb, hforbf, hescf, hex, hv]
        · have hexf : existsSync fs (resolveFull l.projectRoot v) = false := by simpa using hex
          simp [isValidPath, hvb, hforbf, hescf, hexf, hv]

/-- Witness for the amended claim C2 at a nonexistent relative path. -/
theorem claim2_witness :
    checkVariableDeclaration ["/a/b", "/a/b/package.json"]
      ⟨⟨[], fun _ => none⟩, "/a/b", Severity.error⟩
      ⟨some (TSExpr.stringLiteral "src/nope.ts" 5 13),
       some (TypeNode.typeReference (EntityName.ident "FilePathStr")), "t.ts"⟩ =
      some { category := DiagnosticCategory.Error, code := 1001,
             messageText := "Invalid path: \x22src/nope.ts\x22 does not exist or is not accessible",
             file := "t.ts", start := 5, length := 13 } := by
  rw [claim2_main ["/a/b", "/a/b/package.json"]
    ⟨⟨[], fun _ => none⟩, "/a/b", Severity.error⟩ "src/nope.ts" 5 13 "t.ts"
    (TypeNode.typeReference (EntityName.ident "FilePathStr")) rfl]
  rfl

/-! ### Claim C7 -/

/-- Claim C7: a variable declaration whose type annotation does not
resolve to one of the three marker names never produces a diagnostic; a
non-reference annotation (such as the plain string keyword) is never a
path type, and the name of a reference is the rightmost segment of its
(possibly qualified) entity name. -/
theorem claim7_main :
    (∀ (fs : FileSystem) (l : PathLinter) (node : VariableDeclaration) (t : TypeNode),
      node.type = some t → isPathType t = false →
      checkVariableDeclaration fs l node = none) ∧
    (∀ (left : EntityName) (r : String),
      getTypeNameFromAST (EntityName.qualified left r) = r) ∧
    isPathType TypeNode.otherType = false ∧
    (∀ n : EntityName, getTypeNameFromAST n ≠ "FilePathStr" →
      getTypeNameFromAST n ≠ "FolderPathStr" → getTypeNameFromAST n ≠ "AnyPathStr" →
      isPathType (TypeNode.typeReference n) = false) := by
  refine ⟨?_, ?_, rfl, ?_⟩
  · intro fs l node t hty ht
    obtain ⟨init, ty, fn⟩ := node
    have hty2 : ty = some t := hty
    subst hty2
    cases init with
    | none => rfl
    | some e =>
      cases e with
      | otherExpr => rfl
      | stringLiteral v st w => simp [checkVariableDeclaration, ht]
  · intro left r
    rfl
  · intro n h1 h2 h3
    simp [isPathType, h1, h2, h3]

/-- Witness for claim C7 at a declaration with a qualified non-marker
type annotation and a nonexistent literal path. -/
theorem claim7_witness :
    checkVariableDeclaration [] ⟨⟨[], fun _ => none⟩, "/a/b", Severity.error⟩
      ⟨some (TSExpr.stringLiteral "src/nope.ts" 5 13),
       some (TypeNode.typeReference (EntityName.qualified (EntityName.ident "lintedPaths") "Foo")),
       "t.ts"⟩ = none :=
  claim7_main.1 [] ⟨⟨[], fun _ => none⟩, "/a/b", Severity.error⟩
    ⟨some (TSExpr.stringLiteral "src/nope.ts" 5 13),
     some (TypeNode.typeReference (EntityName.qualified (EntityName.ident "lintedPaths") "Foo")),
     "t.ts"⟩
    (TypeNode.typeReference (EntityName.qualified (EntityName.ident "lintedPaths") "Foo"))
    rfl (by decide)

/-! ### Claim C8 -/

/-- Replaces only the category field of a diagnostic by the category of
the given severity. -/
def recat (s : Severity) (d : Diagnostic) : Diagnostic :=
  { d with category := getSeverityCategory s }

/-- The per-declaration check depends on the severity option only through
the category field of the emitted diagnostic. -/
lemma checkVariableDeclaration_recat (fs : FileSystem) (prog : TSProgram) (root : String)
    (sev : Severity) (node : VariableDeclaration) :
    checkVariableDeclaration fs ⟨prog, root, sev⟩ node =
      (checkVariableDeclaration fs ⟨prog, root, Severity.error⟩ node).map (recat sev) := by
  obtain ⟨init, ty, fn⟩ := node
  cases init with
  | none => rfl
  | some e =>
    cases e with
    | otherExpr => rfl
    | stringLiteral v st w =>
      cases ty with
      | none => rfl
      | some t =>
        simp only [checkVariableDeclaration]
        by_cases ht : isPathType t = true
        · simp only [ht, Bool.not_true, Bool.false_eq_true, if_false]
          by_cases hv : isValidPath fs root v = true
          · simp [hv]
          · have hvf : isValidPath fs root v = false := by simpa using hv
            simp [hvf, recat, getSeverityCategory]
        · have htf : isPathType t = false := by simpa using ht
          simp [htf]

mutual
/-- The visitor's diagnostics for a node under any severity are those
under error severity with only the category replaced. -/
theorem checkNode_recat (fs : FileSystem) (prog : TSProgram) (root : String) (sev : Severity) :
    ∀ n : TSNode,
      checkNode fs ⟨prog, root, sev⟩ n =
        (checkNode fs ⟨prog, root, Severity.error⟩ n).map (recat sev)
  | .mk decl children => by
    rw [checkNode.eq_def, checkNode.eq_def]
    dsimp only
    rw [checkForest_recat fs prog root sev children, List.map_append]
    congr 1
    cases decl with
    | none => rfl
    | some vd =>
      dsimp only
      rw [checkVariableDeclaration_recat fs prog root sev vd]
      cases vd.initializer with
      | none => rfl
      | some e =>
        cases checkVariableDeclaration fs ⟨prog, root, Severity.error⟩ vd <;> rfl

/-- The visitor's diagnostics for a children list under any severity are
those under error severity with only the category replaced. -/
theorem checkForest_recat (fs : FileSystem) (prog : TSProgram) (root : String) (sev : Severity) :
    ∀ f : TSForest,
      checkForest fs ⟨prog, root, sev⟩ f =
        (checkForest fs ⟨prog, root, Severity.error⟩ f).map (recat sev)
  | .nil => by rw [checkForest, checkForest]; rfl
  | .cons n ns => by
    rw [checkForest, checkForest, checkNode_recat fs prog root sev n,
      checkForest_recat fs prog root sev ns, List.map_append]
end

/-- Claim C8: running the checker over a file with any severity yields
exactly the error-severity diagnostics with only the category field
replaced (so the count, messages, codes and spans are unchanged); warn
maps to the Warning category and off maps to the advisory Suggestion
category (still producing every diagnostic) while error maps to Error. -/
theorem claim8_main (fs : FileSystem) (prog : TSProgram) (root : String)
    (sev : Severity) (sf : SourceFile) :
    checkFile fs ⟨prog, root, sev⟩ sf =
      (checkFile fs ⟨prog, root, Severity.error⟩ sf).map (recat sev) ∧
    getSeverityCategory Severity.warn = DiagnosticCategory.Warning ∧
    getSeverityCategory Severity.off = DiagnosticCategory.Suggestion ∧
    getSeverityCategory Severity.error = DiagnosticCategory.Error ∧
    (checkFile fs ⟨prog, root, Severity.off⟩ sf).length =
      (checkFile fs ⟨prog, root, Severity.error⟩ sf).length := by
  refine ⟨checkNode_recat fs prog root sev sf.ast, rfl, rfl, rfl, ?_⟩
  have h := checkNode_recat fs prog root Severity.off sf.ast
  show (checkNode fs ⟨prog, root, Severity.off⟩ sf.ast).length = _
  rw [h, List.length_map]
  rfl

/-! ### Claim C9 -/

/-- Claim C9: when the plugin's create entry point succeeds, the returned
wrapper's diagnostics entry point yields the wrapped service's original
diagnostics followed by the path checker's diagnostics for the requested
file (nothing appended when the program lacks the file), and the
getProgram accessor and every other property access are forwarded to the
wrapped service unchanged. -/
theorem claim9_main (V : Type) (fs : FileSystem) (cwd : String)
    (options : Option Severity) (info : PluginInfo V) (ls : LanguageService V)
    (h : createPathLinterPlugin V fs cwd options info = Except.ok ls) :
    ∃ linter, mkPathLinter fs cwd info.languageService.getProgram options = Except.ok linter ∧
      (∀ fn, ls.getSemanticDiagnostics fn =
        info.languageService.getSemanticDiagnostics fn ++
          (match info.languageService.getProgram.getSourceFile fn with
           | some sf => checkFile fs linter sf
           | none => [])) ∧
      ls.getProgram = info.languageService.getProgram ∧
      ls.getProp = info.languageService.getProp := by
  unfold createPathLinterPlugin at h
  cases hm : mkPathLinter fs cwd info.languageService.getProgram options with
  | error e => rw [hm] at h; cases h
  | ok linter =>
    rw [hm] at h
    injection h with h
    refine ⟨linter, rfl, ?_, ?_, ?_⟩
    · intro fn
      rw [← h]
      cases hsf : info.languageService.getProgram.getSourceFile fn with
      | none => simp [hsf]
      | some sf => simp [hsf]
    · rw [← h]
    · rw [← h]

/-- A concrete plugin-host info object over a trivial wrapped service. -/
def infoW : PluginInfo Nat :=
  ⟨{ getSemanticDiagnostics := fun _ => [],
     getProgram := ⟨[], fun _ => none⟩,
     getProp := fun _ => 0 }⟩

/-- The wrapper built by a successful create call on infoW. -/
def lsW : LanguageService Nat :=
  match createPathLinterPlugin Nat ["/a/b/package.json"] "/a/b" none infoW with
  | .ok l => l
  | .error _ => infoW.languageService

/-- Witness for claim C9 at a concrete wrapped service and filesystem. -/
theorem claim9_witness :
    ∃ linter, mkPathLinter ["/a/b/package.json"] "/a/b" infoW.languageService.getProgram none =
        Except.ok linter ∧
      (∀ fn, lsW.getSemanticDiagnostics fn =
        infoW.languageService.getSemanticDiagnostics fn ++
          (match infoW.languageService.getProgram.getSourceFile fn with
           | some sf => checkFile ["/a/b/package.json"] linter sf
           | none => [])) ∧
      lsW.getProgram = infoW.languageService.getProgram ∧
      lsW.getProp = infoW.languageService.getProp :=
  claim9_main Nat ["/a/b/package.json"] "/a/b" none infoW lsW rfl

end LintedPaths
